import Mathlib

/-!
# Verification of the irsattend attendance data-store layer

A shallow embedding of the Sqlite-backed data-store layer of the
`irsattend` attendance application, together with proofs about the
repository operations.

## Modelling conventions

* Date values (the TEXT `event_date` columns, compared as ISO-8601 strings)
  are modelled as `Nat`; the lexicographic order on ISO date strings is the
  usual order on the dates themselves.
* Timestamps (TEXT ISO-8601 date-times) are modelled as a pair of a day and
  an intra-day component with the lexicographic order; comparing a
  timestamp string against a date string ('YYYY-MM-DDTHH:MM:SS' vs
  'YYYY-MM-DD') succeeds exactly when the timestamp's date part is on or
  after that date, which the model mirrors.
* Tables are lists of row structures.  `INSERT` appends; constraint checks
  (`PRIMARY KEY`, `UNIQUE`, foreign keys) are performed explicitly and
  raise `SqlError.integrityError`, mirroring `sqlite3.IntegrityError`.
  The generated columns `event_date` / `day_of_week` of the `checkins`
  table are functions of the stored `timestamp`, exactly as in the schema
  (`event_date TEXT GENERATED ALWAYS AS (date(timestamp))`).
* A Python method that mutates the store and may raise is modelled as a
  function returning the new store paired with an optional error; when an
  error is returned the transaction-rollback semantics of the
  `with conn:` blocks determine the returned store.
-/

namespace IrsAttend

/-- `schema.EventType` / `events_mod.EventType`: the closed enumeration of
event types stored in the TEXT `event_type` columns. -/
inductive EventType where
  | competition
  | kickoff
  | meeting
  | none
  | opportunity
  | outreach
  | virtual
  | volunteering
deriving DecidableEq, Repr

/-- The `.value` string of each `EventType` member (Python `enum.StrEnum`). -/
def EventType.value : EventType → String
  | .competition => "competition"
  | .kickoff => "kickoff"
  | .meeting => "meeting"
  | .none => "none"
  | .opportunity => "opportunity"
  | .outreach => "outreach"
  | .virtual => "virtual"
  | .volunteering => "volunteering"

/-- An ISO date, modelled as a day number; the order on day numbers models
the lexicographic TEXT order on 'YYYY-MM-DD' strings. -/
abbrev Date := Nat

/-- An ISO date-time: the date part (`date(timestamp)`, the generated
`event_date` column) and the intra-day part.  The TEXT column order is the
lexicographic order on the pair. -/
structure Timestamp where
  day : Date
  sec : Nat
deriving DecidableEq, Repr

/-- Lexicographic order on ISO date-time strings. -/
def Timestamp.le (a b : Timestamp) : Prop :=
  a.day < b.day ∨ (a.day = b.day ∧ a.sec ≤ b.sec)

instance : DecidableRel Timestamp.le := by
  intro a b; unfold Timestamp.le; infer_instance

/-- `'YYYY-MM-DDTHH:MM:SS' >= 'YYYY-MM-DD'` in Sqlite TEXT comparison holds
exactly when the timestamp's date part is on or after the date. -/
def Timestamp.onOrAfter (ts : Timestamp) (d : Date) : Prop := d ≤ ts.day

instance : ∀ ts d, Decidable (Timestamp.onOrAfter ts d) := by
  intro ts d; unfold Timestamp.onOrAfter; infer_instance

/-- `strftime('%u', event_date)`: ISO weekday, Monday = 1 .. Sunday = 7, a
pure function of the date. -/
def dayOfWeek (d : Date) : Nat := d % 7 + 1

/-- A row of the `students` table (`STUDENT_TABLE_SCHEMA`):
`student_id TEXT PRIMARY KEY`, names, `email TEXT UNIQUE NOT NULL`,
`grad_year INTEGER NOT NULL`. -/
structure StudentRow where
  student_id : String
  first_name : String
  last_name : String
  email : String
  grad_year : Int
deriving DecidableEq, Repr

/-- A row of the `events` table (`EVENT_TABLE_SCHEMA`): composite
`PRIMARY KEY (event_date, event_type) ON CONFLICT IGNORE`; `day_of_week`
is a virtual generated column and is not stored. -/
structure EventRow where
  event_date : Date
  event_type : EventType
  description : Option String
deriving DecidableEq, Repr

/-- A row of the `checkins` table (`CHECKINS_TABLE_SCHEMA`):
`checkin_id INTEGER PRIMARY KEY AUTOINCREMENT`, `student_id`,
`event_type`, `timestamp`; `event_date` and `day_of_week` are virtual
generated columns derived from `timestamp` and are not stored. -/
structure CheckinRow where
  checkin_id : Nat
  student_id : String
  event_type : EventType
  timestamp : Timestamp
deriving DecidableEq, Repr

/-- Generated column `event_date` of a check-in: `date(timestamp)`. -/
def CheckinRow.event_date (c : CheckinRow) : Date := c.timestamp.day

/-- The key of the uniqueness constraint
`CONSTRAINT single_event_constraint UNIQUE(student_id, event_date, event_type)`. -/
def CheckinRow.ukey (c : CheckinRow) : String × Date × EventType :=
  (c.student_id, c.timestamp.day, c.event_type)

/-- The composite primary key of an `events` row. -/
def EventRow.key (e : EventRow) : Date × EventType := (e.event_date, e.event_type)

/-- The database state: the three tables plus the AUTOINCREMENT counter of
the `checkins` table. -/
structure DB where
  students : List StudentRow
  events : List EventRow
  checkins : List CheckinRow
  nextCheckinId : Nat
deriving DecidableEq, Repr

/-- A fresh store, as produced by `DBase.create_tables`. -/
def DB.empty : DB := ⟨[], [], [], 1⟩

/-- Errors raised by the storage layer or the repositories:
`sqlite3.IntegrityError` (constraint violations),
`sqlite3.ProgrammingError` (operating on a closed connection), and the
repository-level `EventUpateError` [sic] of `events_mod`. -/
inductive SqlError where
  | integrityError
  | programmingError
  | eventUpdateError
deriving DecidableEq, Repr

/-- Student IDs currently stored (`SELECT student_id FROM students`). -/
def DB.studentIds (db : DB) : List String := db.students.map (·.student_id)

/-- Emails currently stored. -/
def DB.emails (db : DB) : List String := db.students.map (·.email)

/-- Event primary keys currently stored. -/
def DB.eventKeys (db : DB) : List (Date × EventType) := db.events.map EventRow.key

/-- Uniqueness-constraint keys of the stored check-ins. -/
def DB.checkinKeys (db : DB) : List (String × Date × EventType) :=
  db.checkins.map CheckinRow.ukey

/-- The central invariant of the store: the schema-level constraint
`UNIQUE(student_id, event_date, event_type)` on the `checkins` table —
no two stored check-in rows share a (student, event-date, event-type)
key. -/
def DB.UniqueCheckins (db : DB) : Prop := db.checkinKeys.Nodup

instance : ∀ db : DB, Decidable db.UniqueCheckins := by
  intro db; unfold DB.UniqueCheckins; infer_instance

/-- Well-formedness of a reachable store: primary keys and unique columns
are duplicate-free and the foreign keys of the `checkins` table are
satisfied.  Every constraint here is one the schema enforces on write. -/
def DB.WF (db : DB) : Prop :=
  db.studentIds.Nodup ∧
  db.emails.Nodup ∧
  db.eventKeys.Nodup ∧
  db.UniqueCheckins ∧
  (∀ c ∈ db.checkins, c.student_id ∈ db.studentIds) ∧
  (∀ c ∈ db.checkins, (c.timestamp.day, c.event_type) ∈ db.eventKeys)

instance : ∀ db : DB, Decidable db.WF := by
  intro db; unfold DB.WF; infer_instance

/-! ## The raw `INSERT INTO checkins` statement

Shared by `DBase.add_checkin_record`, `Checkin.add`, the check-in loop of
`DBase.merge_database` and `DBase.load_from_dict`:

```
INSERT INTO checkins (student_id, event_type, timestamp)
     VALUES (:student_id, :event_type, :timestamp);
```

The statement commits immediately (`with conn:`), so besides the UNIQUE
constraint the two foreign keys — `student_id REFERENCES students` and the
(deferred) `(event_date, event_type) REFERENCES events` — are all checked
before the operation returns. -/

/-- One `INSERT INTO checkins` with all schema constraints of
`CHECKINS_TABLE_SCHEMA`; on violation `sqlite3.IntegrityError` is raised
and the store is unchanged. -/
def checkinsInsert (db : DB) (sid : String) (ty : EventType) (ts : Timestamp) :
    DB × Option SqlError :=
  if (sid, ts.day, ty) ∈ db.checkinKeys then
    (db, some .integrityError)
  else if sid ∉ db.studentIds then
    (db, some .integrityError)
  else if (ts.day, ty) ∉ db.eventKeys then
    (db, some .integrityError)
  else
    ({ db with
        checkins := db.checkins ++ [⟨db.nextCheckinId, sid, ty, ts⟩],
        nextCheckinId := db.nextCheckinId + 1 }, Option.none)

/-- `DBase.add_checkin_record(student_id, timestamp, event_type)`: runs the
raw insert with no `try/except`, so a constraint violation propagates as
the storage-level `sqlite3.IntegrityError`; on success the timestamp is
returned. -/
def add_checkin_record (db : DB) (sid : String) (ts : Timestamp)
    (ty : EventType := .meeting) : DB × (Timestamp ⊕ SqlError) :=
  match checkinsInsert db sid ty ts with
  | (db', Option.none) => (db', Sum.inl ts)
  | (db', some e) => (db', Sum.inr e)

/-- `Checkin.add` (events_mod): the same raw insert, returning the new
`checkin_id` on success; a constraint violation again propagates. -/
def Checkin.add (db : DB) (sid : String) (ty : EventType) (ts : Timestamp) :
    DB × (Nat ⊕ SqlError) :=
  match checkinsInsert db sid ty ts with
  | (db', Option.none) => (db', Sum.inl db.nextCheckinId)
  | (db', some e) => (db', Sum.inr e)

/-- The row delivered by `ORDER BY timestamp DESC LIMIT 1`: a row whose
timestamp is greatest in the list (`Option.none` on an empty list). -/
def latestOf : List CheckinRow → Option CheckinRow
  | [] => Option.none
  | c :: cs =>
      match latestOf cs with
      | Option.none => some c
      | some m => if Timestamp.le m.timestamp c.timestamp then some c else some m

/-- `DBase.remove_last_checkin_record(student_id)`: selects the row with
the greatest timestamp for the student (`ORDER BY timestamp DESC LIMIT 1`)
and, when one exists, runs
`DELETE FROM checkins WHERE student_id = ?` — the delete is keyed on the
student only, with no timestamp filter — returning the selected row's
timestamp. -/
def remove_last_checkin_record (db : DB) (sid : String) :
    DB × Option Timestamp :=
  match latestOf (db.checkins.filter (fun c => c.student_id = sid)) with
  | Option.none => (db, Option.none)
  | some record =>
      ({ db with checkins := db.checkins.filter (fun c => ¬ c.student_id = sid) },
       some record.timestamp)

/-- `DBase.remove_all_checkin_records(student_id)`: deletes every check-in
of the student and returns the number of rows removed. -/
def remove_all_checkin_records (db : DB) (sid : String) : DB × Nat :=
  ({ db with checkins := db.checkins.filter (fun c => ¬ c.student_id = sid) },
   db.checkins.length - (db.checkins.filter (fun c => ¬ c.student_id = sid)).length)

/-- `DBase.has_attended_today(student_id)`: true when the student has a
check-in with `timestamp >= today_start`. -/
def has_attended_today (db : DB) (sid : String) (todayStart : Date) : Prop :=
  ∃ c ∈ db.checkins, c.student_id = sid ∧ c.timestamp.onOrAfter todayStart

/-! ## Student repository -/

/-- `DBase.add_student`: inserts the row built around the generated ID;
`sqlite3.IntegrityError` (documented in the docstring) propagates when the
`student_id` primary key or the `email UNIQUE` constraint is violated. -/
def add_student (db : DB) (s : StudentRow) : DB × Option SqlError :=
  if s.student_id ∈ db.studentIds then (db, some .integrityError)
  else if s.email ∈ db.emails then (db, some .integrityError)
  else ({ db with students := db.students ++ [s] }, Option.none)

/-- `DBase.update_student`: full-record `UPDATE ... WHERE student_id = ?`;
absent rows are a no-op (rowcount 0); moving to an email already used by
another student violates `email UNIQUE` and raises. -/
def update_student (db : DB) (sid fn ln em : String) (gy : Int) :
    DB × Option SqlError :=
  if sid ∉ db.studentIds then (db, Option.none)
  else if ∃ s ∈ db.students, s.student_id ≠ sid ∧ s.email = em then
    (db, some .integrityError)
  else
    ({ db with
        students := db.students.map (fun s =>
          if s.student_id = sid then
            { s with first_name := fn, last_name := ln, email := em, grad_year := gy }
          else s) }, Option.none)

/-- `DBase.delete_student`: `DELETE FROM students WHERE student_id = ?`;
with `PRAGMA foreign_keys = ON` and no `ON DELETE CASCADE`, deleting a
student who still has check-ins violates the foreign key and raises. -/
def delete_student (db : DB) (sid : String) : DB × Option SqlError :=
  if ∃ c ∈ db.checkins, c.student_id = sid then (db, some .integrityError)
  else ({ db with students := db.students.filter (fun s => ¬ s.student_id = sid) },
        Option.none)

/-! ## Event repository (`events_mod`) -/

/-- `Event.exists`: `SELECT 1 FROM events WHERE event_date = ? AND event_type = ?`. -/
def eventExists (db : DB) (d : Date) (t : EventType) : Prop := (d, t) ∈ db.eventKeys

instance : ∀ db d t, Decidable (eventExists db d t) := by
  intro db d t; unfold eventExists; infer_instance

/-- The `INSERT INTO events` statement.  The table schema declares
`PRIMARY KEY (event_date, event_type) ON CONFLICT IGNORE`, so inserting an
existing (date, type) pair is a silent no-op with rowcount 0 — this covers
both `DBase.add_event` (which additionally spells `ON CONFLICT DO NOTHING`)
and `Event.add` (plain insert).  Returns whether a row was inserted. -/
def eventsInsert (db : DB) (e : EventRow) : DB × Bool :=
  if e.key ∈ db.eventKeys then (db, false)
  else ({ db with events := db.events ++ [e] }, true)

/-- `Event.add`: insert, reporting `rowcount == 1`. -/
def Event.add (db : DB) (e : EventRow) : DB × Bool := eventsInsert db e

/-- `DBase.add_event(event_type, event_date, description)`: insert-or-ignore. -/
def add_event (db : DB) (ty : EventType) (d : Date) (desc : Option String) : DB :=
  (eventsInsert db ⟨d, ty, desc⟩).1

/-- `Event.delete`: `DELETE FROM events WHERE event_date = ? AND event_type = ?`;
deleting an event still referenced by check-ins violates the
`(event_date, event_type)` foreign key at commit and raises; otherwise
returns whether a row was deleted (`rowcount == 1`). -/
def Event.delete (db : DB) (d : Date) (t : EventType) :
    DB × (Bool ⊕ SqlError) :=
  if (d, t) ∉ db.eventKeys then (db, Sum.inl false)
  else if ∃ c ∈ db.checkins, c.timestamp.day = d ∧ c.event_type = t then
    (db, Sum.inr .integrityError)
  else
    ({ db with events := db.events.filter (fun e => ¬ (e.event_date = d ∧ e.event_type = t)) },
     Sum.inl true)

/-- `Checkin.get_count(event_date, event_type)`:
`SELECT COUNT(*) FROM checkins WHERE event_date = ? AND event_type = ?`. -/
def Checkin.get_count (db : DB) (d : Date) (t : EventType) : Nat :=
  db.checkins.countP (fun c => decide (c.timestamp.day = d ∧ c.event_type = t))

/-- `Event.update_description`: no-op when the description is unchanged on
the object, otherwise `UPDATE events SET description = ... WHERE` key. -/
def update_description (db : DB) (d : Date) (t : EventType)
    (curDesc newDesc : Option String) : DB :=
  if curDesc = newDesc then db
  else
    { db with
        events := db.events.map (fun e =>
          if e.event_date = d ∧ e.event_type = t then { e with description := newDesc }
          else e) }

/-- `Event.update_event_type` (events_mod): returns 0 and does nothing when
the type is unchanged; raises `EventUpateError` when the original event is
absent; then updates the event row (the table's `ON CONFLICT IGNORE`
silently skips the row update when the target (date, new type) event
already exists) and repoints the check-ins of (date, old type) to the new
type inside one transaction.  When some student already has a check-in for
(date, new type) alongside one for (date, old type), the check-in `UPDATE`
hits `single_event_constraint`, `sqlite3.IntegrityError` propagates, and
the `with` block rolls the whole transaction back.  (The model's conflict
test assumes the store satisfies the `UNIQUE` constraint, which the schema
guarantees for every reachable store.) -/
def update_event_type (db : DB) (d : Date) (oldTy newTy : EventType) :
    DB × (Nat ⊕ SqlError) :=
  if oldTy = newTy then (db, Sum.inl 0)
  else if (d, oldTy) ∉ db.eventKeys then (db, Sum.inr .eventUpdateError)
  else if ∃ c ∈ db.checkins, c.timestamp.day = d ∧ c.event_type = oldTy ∧
      (c.student_id, d, newTy) ∈ db.checkinKeys then
    (db, Sum.inr .integrityError)
  else
    ({ db with
        events :=
          if (d, newTy) ∈ db.eventKeys then db.events
          else db.events.map (fun e =>
            if e.event_date = d ∧ e.event_type = oldTy then { e with event_type := newTy }
            else e),
        checkins := db.checkins.map (fun c =>
          if c.timestamp.day = d ∧ c.event_type = oldTy then { c with event_type := newTy }
          else c) },
     Sum.inl (Checkin.get_count db d oldTy))

/-- `Event.update_event_date` (events_mod): returns silently when the new
date equals the current date; raises `EventUpateError` when the original
event is absent or when any check-in references (event_date, event_type);
otherwise updates the event row's date (skipped silently by
`ON CONFLICT IGNORE` when an event at (new date, type) already exists). -/
def update_event_date (db : DB) (d : Date) (t : EventType) (newDate : Date) :
    DB × Option SqlError :=
  if d = newDate then (db, Option.none)
  else if ¬ eventExists db d t then (db, some .eventUpdateError)
  else if 0 < Checkin.get_count db d t then (db, some .eventUpdateError)
  else
    ({ db with
        events :=
          if (newDate, t) ∈ db.eventKeys then db.events
          else db.events.map (fun e =>
            if e.event_date = d ∧ e.event_type = t then { e with event_date := newDate }
            else e) },
     Option.none)

/-! ## Aggregation / reporting -/

/-- A row of `DBase.get_student_attendance_data`. -/
structure AttendanceRow where
  student_id : String
  last_name : String
  first_name : String
  grad_year : Int
  year_checkins : Nat
  build_checkins : Nat
deriving DecidableEq, Repr

/-- `ORDER BY last_name, first_name` on the students listing. -/
def studentNameOrder (a b : StudentRow) : Prop :=
  a.last_name < b.last_name ∨ (a.last_name = b.last_name ∧ a.first_name ≤ b.first_name)

instance : DecidableRel studentNameOrder := by
  intro a b; unfold studentNameOrder; infer_instance

/-- The per-student count computed by the `year_checkins` / `build_checkins`
CTEs: `COUNT(student_id) ... WHERE timestamp >= :start GROUP BY student_id`,
with `COALESCE(..., 0)` supplying 0 for students with no qualifying rows. -/
def countSince (db : DB) (sid : String) (start : Date) : Nat :=
  db.checkins.countP (fun c => decide (c.student_id = sid ∧ c.timestamp.onOrAfter start))

/-- `DBase.get_student_attendance_data()`: students `LEFT JOIN`ed against
the two windowed count CTEs, ordered by (last_name, first_name); the two
window starts come from the settings. -/
def get_student_attendance_data (db : DB) (yearStart buildStart : Date) :
    List AttendanceRow :=
  (List.insertionSort studentNameOrder db.students).map (fun s =>
    ⟨s.student_id, s.last_name, s.first_name, s.grad_year,
      countSince db s.student_id yearStart, countSince db s.student_id buildStart⟩)

/-- A row of `CheckinEvent.get_checkin_events`. -/
structure CheckinEventRow where
  event_date : Date
  event_type : EventType
  checkin_count : Nat
  description : Option String
deriving DecidableEq, Repr

/-- `ORDER BY a.event_date DESC`. -/
def ceDateDesc (a b : CheckinEventRow) : Prop := b.event_date ≤ a.event_date

instance : DecidableRel ceDateDesc := by
  intro a b; unfold ceDateDesc; infer_instance

/-- The `GROUP BY event_date, day_of_week, event_type` key of the
`event_attendance` CTE, computed from a check-in row's generated columns. -/
def checkinGroupKey (c : CheckinRow) : Date × Nat × EventType :=
  (c.timestamp.day, dayOfWeek c.timestamp.day, c.event_type)

/-- The distinct group keys of the `event_attendance` CTE. -/
def eventAttendanceKeys (db : DB) : List (Date × Nat × EventType) :=
  (db.checkins.map checkinGroupKey).dedup

/-- One output row of the `get_checkin_events` query for a group key:
`count(student_id)` over the group, `LEFT JOIN events` on
(event_date, event_type) supplying `COALESCE(e.event_type, a.event_type)`
and the description (the composite primary key of `events` makes the
join single-valued, hence `find?`). -/
def checkinEventRowOf (db : DB) (k : Date × Nat × EventType) : CheckinEventRow :=
  match db.events.find? (fun e => decide (e.event_date = k.1 ∧ e.event_type = k.2.2)) with
  | some e =>
      ⟨k.1, e.event_type,
        db.checkins.countP (fun c => decide (c.timestamp.day = k.1 ∧ c.event_type = k.2.2)),
        e.description⟩
  | Option.none =>
      ⟨k.1, k.2.2,
        db.checkins.countP (fun c => decide (c.timestamp.day = k.1 ∧ c.event_type = k.2.2)),
        Option.none⟩

/-- `CheckinEvent.get_checkin_events`: the `event_attendance` CTE groups the
`checkins` table by (event_date, day_of_week, event_type), then
`LEFT JOIN`s the `events` table, ordered by event_date descending.  The
driving table is the check-in aggregate, so only (date, type) pairs that
occur among the check-ins produce rows. -/
def get_checkin_events (db : DB) : List CheckinEventRow :=
  List.insertionSort ceDateDesc ((eventAttendanceKeys db).map (checkinEventRowOf db))

/-- Modelled from the spec: the distinct (event_date, event_type) pairs of
the stored check-ins that have no corresponding `events` row. -/
def missingPairs (db : DB) : List (Date × EventType) :=
  ((db.checkins.map (fun c => (c.timestamp.day, c.event_type))).dedup).filter
    (fun p => decide (p ∉ db.eventKeys))

/-- Modelled from the spec: `DBase.scan_for_new_events` is exercised by
`tests/test_database.py` (`test_scan_event`) but its definition is not
among the sources; per §4.4 of the spec it "groups existing check-ins by
(event_date, event_type), finds any such pair with no corresponding Event
row, and inserts one", using the check-in's own recorded type, returning
the number of events inserted. -/
def scan_for_new_events (db : DB) : DB × Nat :=
  ({ db with
      events := db.events ++ (missingPairs db).map (fun p => ⟨p.1, p.2, Option.none⟩) },
   (missingPairs db).length)

/-! ## Bulk transfer: export, import, merge -/

/-- A check-in record as exported by `DBase.to_dict`: the stored columns
minus the excluded derived ones (`checkin_id`, `event_date`,
`day_of_week`). -/
structure CheckinExport where
  student_id : String
  event_type : EventType
  timestamp : Timestamp
deriving DecidableEq, Repr

/-- Strip a stored check-in row to its exported columns. -/
def CheckinRow.export (c : CheckinRow) : CheckinExport :=
  ⟨c.student_id, c.event_type, c.timestamp⟩

/-- The interchange snapshot `{students: [...], events: [...], checkins: [...]}`.
The events table's stored columns (event_date, event_type, description) are
exactly the exported ones: `event_id` does not exist and `day_of_week` is
virtual, so the excluded-column filter of `to_dict` leaves event rows
unchanged. -/
structure Snapshot where
  students : List StudentRow
  events : List EventRow
  checkins : List CheckinExport
deriving DecidableEq, Repr

/-- `ORDER BY student_id` on the export listing. -/
def studentIdOrder (a b : StudentRow) : Prop := a.student_id ≤ b.student_id

instance : DecidableRel studentIdOrder := by
  intro a b; unfold studentIdOrder; infer_instance

/-- `ORDER BY event_date, event_type` (TEXT order on the enum values). -/
def eventOrder (a b : EventRow) : Prop :=
  a.event_date < b.event_date ∨
    (a.event_date = b.event_date ∧ a.event_type.value ≤ b.event_type.value)

instance : DecidableRel eventOrder := by
  intro a b; unfold eventOrder; infer_instance

/-- `ORDER BY timestamp` on the check-in listing. -/
def checkinTsOrder (a b : CheckinRow) : Prop := Timestamp.le a.timestamp b.timestamp

instance : DecidableRel checkinTsOrder := by
  intro a b; unfold checkinTsOrder; infer_instance

/-- `DBase.to_dict()`: students ordered by `student_id`, events ordered by
(event_date, event_type), check-ins ordered by `timestamp` with the
derived columns stripped. -/
def to_dict (db : DB) : Snapshot :=
  ⟨List.insertionSort studentIdOrder db.students,
   List.insertionSort eventOrder db.events,
   (List.insertionSort checkinTsOrder db.checkins).map CheckinRow.export⟩

/-- The `executemany(student_query, ...)` of `load_from_dict`: sequential
plain inserts; the first constraint violation aborts the batch (the state
returned alongside an error is discarded by the caller, which rolls the
enclosing transaction back). -/
def insertStudentsFold (db : DB) : List StudentRow → DB × Option SqlError
  | [] => (db, Option.none)
  | s :: rest =>
      match add_student db s with
      | (db', Option.none) => insertStudentsFold db' rest
      | (_, some e) => (db, some e)

/-- The `executemany(event_query, ...)` of `load_from_dict`: sequential
inserts, each silently ignored on a duplicate key by the table's
`ON CONFLICT IGNORE`. -/
def insertEventsFold (db : DB) : List EventRow → DB
  | [] => db
  | e :: rest => insertEventsFold (eventsInsert db e).1 rest

/-- The `executemany(checkins_query, ...)` of `load_from_dict`: sequential
constrained inserts; the first violation aborts the batch. -/
def insertCheckinsFold (db : DB) : List CheckinExport → DB × Option SqlError
  | [] => (db, Option.none)
  | c :: rest =>
      match checkinsInsert db c.student_id c.event_type c.timestamp with
      | (db', Option.none) => insertCheckinsFold db' rest
      | (_, some e) => (db, some e)

/-- `DBase.load_from_dict(db_data_dict)`: one transaction inserting
students then events (rolled back together if the student batch fails),
then a second transaction inserting the check-ins (rolled back alone if it
fails, with the first transaction already committed); errors propagate. -/
def load_from_dict (db : DB) (snap : Snapshot) : DB × Option SqlError :=
  match insertStudentsFold db snap.students with
  | (_, some e) => (db, some e)
  | (db1, Option.none) =>
      match insertCheckinsFold (insertEventsFold db1 snap.events) snap.checkins with
      | (_, some e) => (insertEventsFold db1 snap.events, some e)
      | (db3, Option.none) => (db3, Option.none)

/-- The student phase of `DBase.merge_database`: for each incoming student
whose `student_id` is not among the target IDs captured before the loop,
`INSERT ... ON CONFLICT(email) DO NOTHING`; a primary-key conflict (only
possible when the incoming rows repeat an ID) raises and rolls the whole
phase back. -/
def mergeStudents (initIds : List String) (db : DB) :
    List StudentRow → DB × Option SqlError
  | [] => (db, Option.none)
  | s :: rest =>
      if s.student_id ∈ initIds then mergeStudents initIds db rest
      else if s.student_id ∈ db.studentIds then (db, some .integrityError)
      else if s.email ∈ db.emails then mergeStudents initIds db rest
      else mergeStudents initIds { db with students := db.students ++ [s] } rest

/-- The check-in loop written in `DBase.merge_database`: each incoming
check-in is inserted in its own transaction, and a `sqlite3.IntegrityError`
(duplicate check-in, missing student or event) is caught, printed and
skipped. -/
def mergeCheckinsLoop (db : DB) : List CheckinRow → DB
  | [] => db
  | c :: rest =>
      mergeCheckinsLoop (checkinsInsert db c.student_id c.event_type c.timestamp).1 rest

/-- `DBase.merge_database(incoming)` as written: the student phase runs and
commits, but the incoming check-ins cursor is only iterated after
`incoming_conn.close()`, and iterating a cursor of a closed connection
raises `sqlite3.ProgrammingError` ("Cannot operate on a closed database")
before the first row is delivered.  The check-in loop is therefore dead
code: the call always raises, leaving the target with only the phase-one
student inserts (or, if the student phase itself raised, unchanged). -/
def merge_database (db incoming : DB) : DB × Option SqlError :=
  match mergeStudents db.studentIds db incoming.students with
  | (_, some e) => (db, some e)
  | (db1, Option.none) => (db1, some .programmingError)

/-- The merge the dead code describes: the student phase followed by the
skip-on-violation check-in loop over the incoming check-ins. -/
def merge_database_checkin_loop (db incoming : DB) : DB × Option SqlError :=
  match mergeStudents db.studentIds db incoming.students with
  | (_, some e) => (db, some e)
  | (db1, Option.none) => (mergeCheckinsLoop db1 incoming.checkins, Option.none)

/-! ## The repository operations as a state machine -/

/-- One repository operation on the store. -/
inductive Op where
  | addStudent (s : StudentRow)
  | updateStudent (sid fn ln em : String) (gy : Int)
  | deleteStudent (sid : String)
  | addEvent (ty : EventType) (d : Date) (desc : Option String)
  | deleteEvent (d : Date) (t : EventType)
  | updateDescription (d : Date) (t : EventType) (cur new : Option String)
  | updateEventType (d : Date) (oldTy newTy : EventType)
  | updateEventDate (d : Date) (t : EventType) (newDate : Date)
  | addCheckin (sid : String) (ts : Timestamp) (ty : EventType)
  | removeLast (sid : String)
  | removeAll (sid : String)
  | merge (incoming : DB)
  | loadDict (snap : Snapshot)
  | scanForNewEvents
deriving Repr

/-- The store reached after one repository operation (the store an
operation leaves behind also when it raises, per the rollback semantics
built into each model). -/
def applyOp (db : DB) : Op → DB
  | .addStudent s => (add_student db s).1
  | .updateStudent sid fn ln em gy => (update_student db sid fn ln em gy).1
  | .deleteStudent sid => (delete_student db sid).1
  | .addEvent ty d desc => add_event db ty d desc
  | .deleteEvent d t => (Event.delete db d t).1
  | .updateDescription d t cur new => update_description db d t cur new
  | .updateEventType d oldTy newTy => (update_event_type db d oldTy newTy).1
  | .updateEventDate d t newDate => (update_event_date db d t newDate).1
  | .addCheckin sid ts ty => (add_checkin_record db sid ts ty).1
  | .removeLast sid => (remove_last_checkin_record db sid).1
  | .removeAll sid => (remove_all_checkin_records db sid).1
  | .merge incoming => (merge_database db incoming).1
  | .loadDict snap => (load_from_dict db snap).1
  | .scanForNewEvents => (scan_for_new_events db).1

/-- The store reached after a sequence of repository operations. -/
def applyOps (db : DB) : List Op → DB
  | [] => db
  | op :: ops => applyOps (applyOp db op) ops

/-! ## Sample stores used by the witnesses and counterexamples -/

/-- A sample student row. -/
def adaRow : StudentRow :=
  ⟨"lovelace-ada-2027-001", "Ada", "Lovelace", "ada@example.com", 2027⟩

/-- A second sample student row. -/
def graceRow : StudentRow :=
  ⟨"hopper-grace-2026-002", "Grace", "Hopper", "grace@example.com", 2026⟩

/-- A sample store: two students, two events, Ada checked in at both events
and Grace at the first. -/
def sampleDB : DB :=
  ⟨[adaRow, graceRow],
   [⟨100, .meeting, some "kickoff"⟩, ⟨101, .meeting, Option.none⟩],
   [⟨1, "lovelace-ada-2027-001", .meeting, ⟨100, 3600⟩⟩,
    ⟨2, "hopper-grace-2026-002", .meeting, ⟨100, 3700⟩⟩,
    ⟨3, "lovelace-ada-2027-001", .meeting, ⟨101, 1800⟩⟩],
   4⟩

/-- A store whose events table has a row with zero check-ins. -/
def zeroAttendanceDB : DB :=
  ⟨[adaRow],
   [⟨100, .meeting, some "kickoff"⟩, ⟨102, .outreach, some "fair"⟩],
   [⟨1, "lovelace-ada-2027-001", .meeting, ⟨100, 3600⟩⟩],
   2⟩

/-- An incoming store for the merge scenarios: one known student, one new
student, one duplicate check-in and one new check-in. -/
def incomingDB : DB :=
  ⟨[adaRow, ⟨"curie-marie-2028-003", "Marie", "Curie", "marie@example.com", 2028⟩],
   [⟨100, .meeting, some "kickoff"⟩],
   [⟨1, "lovelace-ada-2027-001", .meeting, ⟨100, 3600⟩⟩,
    ⟨2, "curie-marie-2028-003", .meeting, ⟨100, 4000⟩⟩],
   3⟩

/-! ## Preservation of the check-in uniqueness constraint -/

theorem uniqueOf_sublist {l l' : List CheckinRow} (hs : List.Sublist l' l)
    (h : (l.map CheckinRow.ukey).Nodup) : (l'.map CheckinRow.ukey).Nodup :=
  (hs.map CheckinRow.ukey).nodup h

theorem checkinsInsert_unique (db : DB) (sid : String) (ty : EventType) (ts : Timestamp)
    (h : db.UniqueCheckins) : ((checkinsInsert db sid ty ts).1).UniqueCheckins := by
  unfold checkinsInsert
  split_ifs with h1 h2 h3
  all_goals try exact h
  unfold DB.UniqueCheckins DB.checkinKeys at h ⊢
  simp only [List.map_append, List.map_cons, List.map_nil]
  rw [List.nodup_append]
  refine ⟨h, List.nodup_singleton _, ?_⟩
  intro k hk hk'
  simp only [List.mem_singleton] at hk'
  subst hk'
  exact h1 hk

theorem add_student_checkins (db : DB) (s : StudentRow) :
    (add_student db s).1.checkins = db.checkins := by
  unfold add_student
  split_ifs <;> rfl

theorem update_student_checkins (db : DB) (sid fn ln em : String) (gy : Int) :
    (update_student db sid fn ln em gy).1.checkins = db.checkins := by
  unfold update_student
  split_ifs <;> rfl

theorem delete_student_checkins (db : DB) (sid : String) :
    (delete_student db sid).1.checkins = db.checkins := by
  unfold delete_student
  split_ifs <;> rfl

theorem eventsInsert_checkins (db : DB) (e : EventRow) :
    (eventsInsert db e).1.checkins = db.checkins := by
  unfold eventsInsert
  split_ifs <;> rfl

theorem add_event_checkins (db : DB) (ty : EventType) (d : Date) (desc : Option String) :
    (add_event db ty d desc).checkins = db.checkins :=
  eventsInsert_checkins db _

theorem event_delete_checkins (db : DB) (d : Date) (t : EventType) :
    (Event.delete db d t).1.checkins = db.checkins := by
  unfold Event.delete
  split_ifs <;> rfl

theorem update_description_checkins (db : DB) (d : Date) (t : EventType)
    (cur new : Option String) :
    (update_description db d t cur new).checkins = db.checkins := by
  unfold update_description
  split_ifs <;> rfl

theorem update_event_date_checkins (db : DB) (d : Date) (t : EventType) (newDate : Date) :
    (update_event_date db d t newDate).1.checkins = db.checkins := by
  unfold update_event_date
  split_ifs <;> rfl

theorem scan_for_new_events_checkins (db : DB) :
    (scan_for_new_events db).1.checkins = db.checkins := rfl

theorem remove_last_unique (db : DB) (sid : String) (h : db.UniqueCheckins) :
    ((remove_last_checkin_record db sid).1).UniqueCheckins := by
  unfold remove_last_checkin_record
  cases hlast : latestOf (db.checkins.filter (fun c => c.student_id = sid)) with
  | none => exact h
  | some record => exact uniqueOf_sublist (List.filter_sublist db.checkins) h

theorem remove_all_unique (db : DB) (sid : String) (h : db.UniqueCheckins) :
    ((remove_all_checkin_records db sid).1).UniqueCheckins :=
  uniqueOf_sublist (List.filter_sublist db.checkins) h

theorem retype_checkins_nodup (db : DB) (d : Date) (oldTy newTy : EventType)
    (h : db.UniqueCheckins)
    (h3 : ¬∃ c ∈ db.checkins, c.timestamp.day = d ∧ c.event_type = oldTy ∧
      (c.student_id, d, newTy) ∈ db.checkinKeys) :
    ((db.checkins.map (fun c =>
        if c.timestamp.day = d ∧ c.event_type = oldTy then { c with event_type := newTy }
        else c)).map CheckinRow.ukey).Nodup := by
  unfold DB.UniqueCheckins DB.checkinKeys at h
  have hcomp :
      (db.checkins.map (fun c =>
          if c.timestamp.day = d ∧ c.event_type = oldTy then { c with event_type := newTy }
          else c)).map CheckinRow.ukey =
        (db.checkins.map CheckinRow.ukey).map (fun k =>
          if k.2.1 = d ∧ k.2.2 = oldTy then (k.1, d, newTy) else k) := by
    rw [List.map_map, List.map_map]
    refine List.map_congr_left (fun c _ => ?_)
    by_cases hc : c.timestamp.day = d ∧ c.event_type = oldTy
    · simp [CheckinRow.ukey, hc, hc.1, hc.2]
    · simp [CheckinRow.ukey, hc]
  rw [hcomp]
  refine h.map_on ?_
  intro k1 hk1 k2 hk2 heq
  by_cases hc1 : k1.2.1 = d ∧ k1.2.2 = oldTy <;>
    by_cases hc2 : k2.2.1 = d ∧ k2.2.2 = oldTy
  · simp only [if_pos hc1, if_pos hc2, Prod.mk.injEq] at heq
    obtain ⟨hs, -⟩ := heq
    obtain ⟨ha, hb⟩ := hc1
    obtain ⟨hc, hd⟩ := hc2
    obtain ⟨x1, y1⟩ := k1
    obtain ⟨x2, y2⟩ := k2
    obtain ⟨y1a, y1b⟩ := y1
    obtain ⟨y2a, y2b⟩ := y2
    simp_all
  · exfalso
    rw [if_pos hc1, if_neg hc2] at heq
    obtain ⟨c2, hc2mem, hc2key⟩ := List.mem_map.1 hk2
    refine h3 ?_
    obtain ⟨c1, hc1mem, hc1key⟩ := List.mem_map.1 hk1
    refine ⟨c1, hc1mem, ?_, ?_, ?_⟩
    · have := hc1.1; rw [← hc1key] at this; exact this
    · have := hc1.2; rw [← hc1key] at this; exact this
    · rw [show (c1.student_id, d, newTy) = k2 from ?_]
      · exact List.mem_map.2 ⟨c2, hc2mem, hc2key⟩
      · rw [← heq, ← hc1key]; rfl
  · exfalso
    rw [if_neg hc1, if_pos hc2] at heq
    obtain ⟨c1, hc1mem, hc1key⟩ := List.mem_map.1 hk1
    obtain ⟨c2, hc2mem, hc2key⟩ := List.mem_map.1 hk2
    refine h3 ⟨c2, hc2mem, ?_, ?_, ?_⟩
    · have := hc2.1; rw [← hc2key] at this; exact this
    · have := hc2.2; rw [← hc2key] at this; exact this
    · rw [show (c2.student_id, d, newTy) = k1 from ?_]
      · exact List.mem_map.2 ⟨c1, hc1mem, hc1key⟩
      · rw [heq, ← hc2key]; rfl
  · rw [if_neg hc1, if_neg hc2] at heq
    exact heq

theorem update_event_type_unique (db : DB) (d : Date) (oldTy newTy : EventType)
    (h : db.UniqueCheckins) : ((update_event_type db d oldTy newTy).1).UniqueCheckins := by
  unfold update_event_type
  split_ifs with h1 h2 h3
  all_goals try exact h
  all_goals exact retype_checkins_nodup db d oldTy newTy h h3

theorem unique_of_checkins_eq {a b : DB} (hab : a.checkins = b.checkins)
    (h : b.UniqueCheckins) : a.UniqueCheckins := by
  unfold DB.UniqueCheckins DB.checkinKeys at h ⊢
  rw [hab]
  exact h

theorem mergeStudents_checkins (l : List StudentRow) : ∀ (ids : List String) (db : DB),
    (mergeStudents ids db l).1.checkins = db.checkins := by
  induction l with
  | nil => intro ids db; rfl
  | cons s rest ih =>
      intro ids db
      unfold mergeStudents
      split_ifs with h1 h2 h3
      · exact ih ids db
      · rfl
      · exact ih ids db
      · exact ih ids _

theorem merge_database_checkins (db incoming : DB) :
    (merge_database db incoming).1.checkins = db.checkins := by
  unfold merge_database
  have hs := mergeStudents_checkins incoming.students db.studentIds db
  rcases hm : mergeStudents db.studentIds db incoming.students with ⟨db1, e⟩
  rw [hm] at hs
  cases e with
  | none => simpa using hs
  | some err => rfl

theorem insertStudentsFold_checkins (l : List StudentRow) : ∀ db : DB,
    (insertStudentsFold db l).1.checkins = db.checkins := by
  induction l with
  | nil => intro db; rfl
  | cons s rest ih =>
      intro db
      unfold insertStudentsFold
      rcases hadd : add_student db s with ⟨db', e⟩
      have h1 := add_student_checkins db s
      rw [hadd] at h1
      cases e with
      | none => exact (ih db').trans h1
      | some err => rfl

theorem insertEventsFold_checkins (l : List EventRow) : ∀ db : DB,
    (insertEventsFold db l).checkins = db.checkins := by
  induction l with
  | nil => intro db; rfl
  | cons e rest ih =>
      intro db
      unfold insertEventsFold
      exact (ih _).trans (eventsInsert_checkins db e)

theorem insertCheckinsFold_unique (l : List CheckinExport) : ∀ db : DB,
    db.UniqueCheckins → ((insertCheckinsFold db l).1).UniqueCheckins := by
  induction l with
  | nil => intro db h; exact h
  | cons c rest ih =>
      intro db h
      unfold insertCheckinsFold
      rcases hins : checkinsInsert db c.student_id c.event_type c.timestamp with ⟨db', e⟩
      have hu := checkinsInsert_unique db c.student_id c.event_type c.timestamp h
      rw [hins] at hu
      cases e with
      | none => exact ih db' hu
      | some err => exact h

theorem load_from_dict_unique (db : DB) (snap : Snapshot) (h : db.UniqueCheckins) :
    ((load_from_dict db snap).1).UniqueCheckins := by
  unfold load_from_dict
  rcases hs : insertStudentsFold db snap.students with ⟨db1, e1⟩
  cases e1 with
  | some err => exact h
  | none =>
      have hc1 := insertStudentsFold_checkins snap.students db
      rw [hs] at hc1
      have h1 : db1.UniqueCheckins := unique_of_checkins_eq hc1 h
      have h2 : (insertEventsFold db1 snap.events).UniqueCheckins :=
        unique_of_checkins_eq (insertEventsFold_checkins snap.events db1) h1
      dsimp only
      rcases hcf : insertCheckinsFold (insertEventsFold db1 snap.events) snap.checkins
        with ⟨db3, e3⟩
      have h3 := insertCheckinsFold_unique snap.checkins _ h2
      rw [hcf] at h3
      cases e3 with
      | none => exact h3
      | some err => exact h2

theorem applyOp_unique (db : DB) (op : Op) (h : db.UniqueCheckins) :
    (applyOp db op).UniqueCheckins := by
  cases op with
  | addStudent s => exact unique_of_checkins_eq (add_student_checkins db s) h
  | updateStudent sid fn ln em gy =>
      exact unique_of_checkins_eq (update_student_checkins db sid fn ln em gy) h
  | deleteStudent sid => exact unique_of_checkins_eq (delete_student_checkins db sid) h
  | addEvent ty d desc => exact unique_of_checkins_eq (add_event_checkins db ty d desc) h
  | deleteEvent d t => exact unique_of_checkins_eq (event_delete_checkins db d t) h
  | updateDescription d t cur new =>
      exact unique_of_checkins_eq (update_description_checkins db d t cur new) h
  | updateEventType d oldTy newTy => exact update_event_type_unique db d oldTy newTy h
  | updateEventDate d t newDate =>
      exact unique_of_checkins_eq (update_event_date_checkins db d t newDate) h
  | addCheckin sid ts ty =>
      show ((add_checkin_record db sid ts ty).1).UniqueCheckins
      unfold add_checkin_record
      rcases hins : checkinsInsert db sid ty ts with ⟨db', e⟩
      have hu := checkinsInsert_unique db sid ty ts h
      rw [hins] at hu
      cases e with
      | none => exact hu
      | some err => exact hu
  | removeLast sid => exact remove_last_unique db sid h
  | removeAll sid => exact remove_all_unique db sid h
  | merge incoming => exact unique_of_checkins_eq (merge_database_checkins db incoming) h
  | loadDict snap => exact load_from_dict_unique db snap h
  | scanForNewEvents => exact unique_of_checkins_eq (scan_for_new_events_checkins db) h

theorem applyOps_unique (ops : List Op) : ∀ db : DB,
    db.UniqueCheckins → (applyOps db ops).UniqueCheckins := by
  induction ops with
  | nil => intro db h; exact h
  | cons op rest ih => intro db h; exact ih (applyOp db op) (applyOp_unique db op h)

theorem countP_eq_one_of_nodup_mem {α : Type} [DecidableEq α] {l : List α} {a : α}
    (h : l.Nodup) (hm : a ∈ l) : l.countP (fun x => decide (x = a)) = 1 := by
  induction l with
  | nil => cases hm
  | cons x xs ih =>
      rw [List.nodup_cons] at h
      rw [List.countP_cons]
      rcases List.mem_cons.1 hm with hax | hax
      · subst hax
        rw [List.countP_eq_zero.2 (fun b hb => by
          simp only [decide_eq_true_eq]
          intro hba; exact h.1 (hba ▸ hb))]
        simp
      · rw [ih h.2 hax]
        have hxa : ¬ x = a := fun hxa => h.1 (hxa ▸ hax)
        simp [hxa]

/-! ## C1 — at most one check-in per (student_id, event_date, event_type) -/

/-- **C1**: after any sequence of repository operations a store satisfying
the `single_event_constraint` still satisfies it — at most one check-in
row per (student_id, event_date, event_type); and a second insert attempt
(`Checkin.add`) for an already-stored key raises the duplicate-violation
`sqlite3.IntegrityError`, leaves the store unchanged, and exactly one row
for that key remains stored. -/
theorem checkin_uniqueness :
    (∀ (db : DB) (ops : List Op), db.UniqueCheckins → (applyOps db ops).UniqueCheckins) ∧
    (∀ (db : DB) (sid : String) (ty : EventType) (ts : Timestamp),
      db.UniqueCheckins → (sid, ts.day, ty) ∈ db.checkinKeys →
        Checkin.add db sid ty ts = (db, Sum.inr SqlError.integrityError) ∧
        ((Checkin.add db sid ty ts).1).checkinKeys.countP
          (fun k => decide (k = (sid, ts.day, ty))) = 1) := by
  refine ⟨fun db ops h => applyOps_unique ops db h, fun db sid ty ts h hmem => ?_⟩
  have hadd : Checkin.add db sid ty ts = (db, Sum.inr SqlError.integrityError) := by
    unfold Checkin.add checkinsInsert
    rw [if_pos hmem]
  refine ⟨hadd, ?_⟩
  rw [hadd]
  exact countP_eq_one_of_nodup_mem h hmem

/-- Witness for C1 at a concrete store: a sequence of operations keeps the
constraint, and re-adding Ada's check-in for (day 100, meeting) is rejected
with exactly one row left. -/
theorem checkin_uniqueness_witness :
    (applyOps sampleDB
      [Op.addCheckin "hopper-grace-2026-002" ⟨101, 2000⟩ .meeting,
       Op.addCheckin "lovelace-ada-2027-001" ⟨100, 9000⟩ .meeting,
       Op.removeLast "hopper-grace-2026-002"]).UniqueCheckins ∧
    (Checkin.add sampleDB "lovelace-ada-2027-001" .meeting ⟨100, 7200⟩ =
      (sampleDB, Sum.inr SqlError.integrityError) ∧
    ((Checkin.add sampleDB "lovelace-ada-2027-001" .meeting ⟨100, 7200⟩).1).checkinKeys.countP
      (fun k => decide (k = ("lovelace-ada-2027-001", 100, EventType.meeting))) = 1) :=
  ⟨checkin_uniqueness.1 sampleDB _ (by decide),
   checkin_uniqueness.2 sampleDB "lovelace-ada-2027-001" .meeting ⟨100, 7200⟩
     (by decide) (by decide)⟩

/-! ## C2 — remove_last_checkin_record deletes every check-in of the student -/

/-- **C2** (the code, evaluated at the failing input): Ada has two
check-ins (days 100 and 101) and Grace one.  `remove_last_checkin_record`
for Ada returns the greatest timestamp (day 101) as the claim says, but
its `DELETE FROM checkins WHERE student_id = ?` carries no timestamp
filter: both of Ada's check-ins are gone — zero remain where the claim
requires exactly one — while Grace's check-in survives. -/
theorem remove_last_deletes_all :
    (remove_last_checkin_record sampleDB "lovelace-ada-2027-001").2 =
      some (⟨101, 1800⟩ : Timestamp) ∧
    ((remove_last_checkin_record sampleDB "lovelace-ada-2027-001").1).checkins =
      [⟨2, "hopper-grace-2026-002", .meeting, ⟨100, 3700⟩⟩] ∧
    ((remove_last_checkin_record sampleDB "lovelace-ada-2027-001").1).checkins.countP
      (fun c => decide (c.student_id = "lovelace-ada-2027-001")) = 0 := by
  refine ⟨?_, ?_, ?_⟩ <;> decide

/-! ## C3 — the guard of update_event_date -/

/-- **C3** (counterexample): event (day 100, meeting) exists in
`sampleDB` and two check-ins reference it, yet calling
`update_event_date` with the new date equal to the current date returns
without raising — the method's first line (`if self.event_date == new_date:
return`) short-circuits before any guard runs, so the claim's "raises
whenever ... at least one check-in references the event" is false. -/
theorem update_event_date_counterexample :
    eventExists sampleDB 100 EventType.meeting ∧
    0 < Checkin.get_count sampleDB 100 EventType.meeting ∧
    (update_event_date sampleDB 100 EventType.meeting 100).2 = Option.none := by
  refine ⟨?_, ?_, ?_⟩ <;> decide

/-- **C3** (amended): when the requested date differs from the event's
current date, `update_event_date` raises `EventUpateError` exactly when
the original event does not exist or at least one check-in references
(event_date, event_type); every failing call leaves the store unchanged,
so a date change succeeds only on an existing event with zero recorded
check-ins; the check-in and student tables are never touched.  When the
requested date equals the current one the call is a silent no-op even if
the guards would fail. -/
theorem update_event_date_guard (db : DB) (d : Date) (t : EventType) (nd : Date)
    (hne : d ≠ nd) :
    ((update_event_date db d t nd).2 = some SqlError.eventUpdateError ↔
      (¬ eventExists db d t ∨ 0 < Checkin.get_count db d t)) ∧
    ((update_event_date db d t nd).2.isSome → (update_event_date db d t nd).1 = db) ∧
    ((update_event_date db d t nd).2 = Option.none →
      eventExists db d t ∧ Checkin.get_count db d t = 0) ∧
    (update_event_date db d t nd).1.checkins = db.checkins ∧
    (update_event_date db d t nd).1.students = db.students := by
  unfold update_event_date
  split_ifs with h1 h2 h3
  · exact absurd h1 hne
  all_goals refine ⟨?_, ?_, ?_, ?_, ?_⟩
  all_goals simp_all

/-- Witness for C3: at `sampleDB`, moving event (day 101, meeting) — which
has a check-in — to day 205 raises and changes nothing. -/
theorem update_event_date_guard_witness :
    (101 : Date) ≠ 205 ∧
    (((update_event_date sampleDB 101 EventType.meeting 205).2 =
        some SqlError.eventUpdateError ↔
      (¬ eventExists sampleDB 101 EventType.meeting ∨
        0 < Checkin.get_count sampleDB 101 EventType.meeting)) ∧
    ((update_event_date sampleDB 101 EventType.meeting 205).2.isSome →
      (update_event_date sampleDB 101 EventType.meeting 205).1 = sampleDB) ∧
    ((update_event_date sampleDB 101 EventType.meeting 205).2 = Option.none →
      eventExists sampleDB 101 EventType.meeting ∧
        Checkin.get_count sampleDB 101 EventType.meeting = 0) ∧
    (update_event_date sampleDB 101 EventType.meeting 205).1.checkins =
      sampleDB.checkins ∧
    (update_event_date sampleDB 101 EventType.meeting 205).1.students =
      sampleDB.students) :=
  ⟨by decide, update_event_date_guard sampleDB 101 EventType.meeting 205 (by decide)⟩

/-! ## C8 — the raw IntegrityError escapes add_checkin_record -/

/-- **C8** (counterexample): `add_checkin_record` wraps its insert in no
`try/except`, so hitting `single_event_constraint` surfaces the raw
storage-level `sqlite3.IntegrityError` to the caller — no translation to
an "already checked in" outcome happens at the repository boundary. -/
theorem add_checkin_record_counterexample :
    (add_checkin_record sampleDB "lovelace-ada-2027-001" ⟨100, 7200⟩ .meeting).2 =
      Sum.inr SqlError.integrityError ∧
    (add_checkin_record sampleDB "lovelace-ada-2027-001" ⟨100, 7200⟩ .meeting).1 =
      sampleDB := by
  refine ⟨?_, ?_⟩ <;> decide

/-- **C8** (amended): a duplicate (student_id, event_date, event_type)
insert makes `add_checkin_record` propagate the raw
`sqlite3.IntegrityError` unchanged — the store keeps its single row and
callers (the scan screens) are expected to pre-check with
`has_attended_today` instead of relying on a repository-level
translation. -/
theorem add_checkin_record_raw_error (db : DB) (sid : String) (ts : Timestamp)
    (ty : EventType) (hmem : (sid, ts.day, ty) ∈ db.checkinKeys) :
    add_checkin_record db sid ts ty = (db, Sum.inr SqlError.integrityError) := by
  unfold add_checkin_record checkinsInsert
  rw [if_pos hmem]

/-- Witness for C8 at the sample store. -/
theorem add_checkin_record_raw_error_witness :
    ("lovelace-ada-2027-001", (100 : Date), EventType.meeting) ∈ sampleDB.checkinKeys ∧
    add_checkin_record sampleDB "lovelace-ada-2027-001" ⟨100, 7200⟩ .meeting =
      (sampleDB, Sum.inr SqlError.integrityError) :=
  ⟨by decide,
   add_checkin_record_raw_error sampleDB "lovelace-ada-2027-001" ⟨100, 7200⟩ .meeting
     (by decide)⟩

/-! ## C4 — events with zero check-ins are absent from the summary -/

theorem checkinEventRowOf_key (db : DB) (k : Date × Nat × EventType) :
    (checkinEventRowOf db k).event_date = k.1 ∧
      (checkinEventRowOf db k).event_type = k.2.2 := by
  unfold checkinEventRowOf
  cases hfind : db.events.find?
      (fun e => decide (e.event_date = k.1 ∧ e.event_type = k.2.2)) with
  | none => exact ⟨rfl, rfl⟩
  | some e =>
      have he := List.find?_some hfind
      simp only [decide_eq_true_eq] at he
      exact ⟨rfl, he.2⟩

theorem checkinEventRowOf_count (db : DB) (k : Date × Nat × EventType) :
    (checkinEventRowOf db k).checkin_count =
      db.checkins.countP (fun c => decide (c.timestamp.day = k.1 ∧ c.event_type = k.2.2)) := by
  unfold checkinEventRowOf
  cases hfind : db.events.find?
      (fun e => decide (e.event_date = k.1 ∧ e.event_type = k.2.2)) with
  | none => rfl
  | some e => rfl

theorem mem_get_checkin_events (db : DB) (r : CheckinEventRow) :
    r ∈ get_checkin_events db ↔
      ∃ k ∈ eventAttendanceKeys db, r = checkinEventRowOf db k := by
  unfold get_checkin_events
  rw [(List.perm_insertionSort ceDateDesc _).mem_iff, List.mem_map]
  constructor
  · rintro ⟨k, hk, hkr⟩; exact ⟨k, hk, hkr.symm⟩
  · rintro ⟨k, hk, hkr⟩; exact ⟨k, hk, hkr.symm⟩

theorem mem_eventAttendanceKeys (db : DB) (k : Date × Nat × EventType) :
    k ∈ eventAttendanceKeys db ↔ ∃ c ∈ db.checkins, checkinGroupKey c = k := by
  unfold eventAttendanceKeys
  rw [List.mem_dedup, List.mem_map]

/-- **C4** (counterexample): `zeroAttendanceDB` stores the event
(day 102, outreach) with zero check-ins, and no row of
`get_checkin_events` mentions it — the summary drives off the check-in
aggregate, so a zero-attendance event silently disappears, contrary to
the claim. -/
theorem get_checkin_events_counterexample :
    (⟨102, .outreach, some "fair"⟩ : EventRow) ∈ zeroAttendanceDB.events ∧
    ∀ r ∈ get_checkin_events zeroAttendanceDB,
      ¬ (r.event_date = 102 ∧ r.event_type = EventType.outreach) := by
  refine ⟨?_, ?_⟩ <;> decide

/-- **C4** (amended): `get_checkin_events` returns exactly one row per
distinct (event_date, event_type) pair occurring among the stored
check-ins — carrying that group's check-in count — and no other rows: an
event with zero check-ins does not appear in the summary. -/
theorem get_checkin_events_contract (db : DB) :
    ((get_checkin_events db).map (fun r => (r.event_date, r.event_type))).Nodup ∧
    (∀ (d : Date) (t : EventType),
      (∃ r ∈ get_checkin_events db, r.event_date = d ∧ r.event_type = t) ↔
        ∃ c ∈ db.checkins, c.timestamp.day = d ∧ c.event_type = t) ∧
    (∀ r ∈ get_checkin_events db,
      r.checkin_count = db.checkins.countP
        (fun c => decide (c.timestamp.day = r.event_date ∧ c.event_type = r.event_type))) := by
  have hdow : ∀ k ∈ eventAttendanceKeys db, k.2.1 = dayOfWeek k.1 := by
    intro k hk
    obtain ⟨c, -, hck⟩ := (mem_eventAttendanceKeys db k).1 hk
    subst hck
    rfl
  refine ⟨?_, ?_, ?_⟩
  · have hperm :
        List.Perm
          ((get_checkin_events db).map (fun r => (r.event_date, r.event_type)))
          (((eventAttendanceKeys db).map (checkinEventRowOf db)).map
            (fun r => (r.event_date, r.event_type))) :=
      (List.perm_insertionSort ceDateDesc _).map _
    refine hperm.symm.nodup ?_
    rw [List.map_map]
    have hmapeq :
        ((eventAttendanceKeys db).map
          ((fun r => (r.event_date, r.event_type)) ∘ checkinEventRowOf db)) =
          (eventAttendanceKeys db).map (fun k => (k.1, k.2.2)) := by
      refine List.map_congr_left (fun k _ => ?_)
      have hk := checkinEventRowOf_key db k
      simp [Function.comp, hk.1, hk.2]
    rw [hmapeq]
    refine (List.nodup_dedup _).map_on ?_
    intro k1 hk1 k2 hk2 heq
    have h1 := hdow k1 hk1
    have h2 := hdow k2 hk2
    obtain ⟨a1, b1, c1⟩ := k1
    obtain ⟨a2, b2, c2⟩ := k2
    simp only [Prod.mk.injEq] at heq ⊢
    simp only at h1 h2
    exact ⟨heq.1, by rw [h1, h2, heq.1], heq.2⟩
  · intro d t
    constructor
    · rintro ⟨r, hr, hrd, hrt⟩
      obtain ⟨k, hk, hkr⟩ := (mem_get_checkin_events db r).1 hr
      obtain ⟨c, hc, hck⟩ := (mem_eventAttendanceKeys db k).1 hk
      have hkey := checkinEventRowOf_key db k
      refine ⟨c, hc, ?_, ?_⟩
      · have : c.timestamp.day = k.1 := by rw [← hck]; rfl
        rw [this, ← hkey.1, ← hkr, hrd]
      · have : c.event_type = k.2.2 := by rw [← hck]; rfl
        rw [this, ← hkey.2, ← hkr, hrt]
    · rintro ⟨c, hc, hcd, hct⟩
      have hk : checkinGroupKey c ∈ eventAttendanceKeys db :=
        (mem_eventAttendanceKeys db _).2 ⟨c, hc, rfl⟩
      have hkey := checkinEventRowOf_key db (checkinGroupKey c)
      refine ⟨checkinEventRowOf db (checkinGroupKey c),
        (mem_get_checkin_events db _).2 ⟨_, hk, rfl⟩, ?_, ?_⟩
      · rw [hkey.1, ← hcd]; rfl
      · rw [hkey.2, ← hct]; rfl
  · intro r hr
    obtain ⟨k, hk, hkr⟩ := (mem_get_checkin_events db r).1 hr
    have hkey := checkinEventRowOf_key db k
    have hcnt := checkinEventRowOf_count db k
    rw [hkr, hcnt, hkey.1, hkey.2]

/-- Witness for C4's amended contract: the check-ins of `sampleDB` on day
101 do surface as a summary row. -/
theorem get_checkin_events_contract_witness :
    ∃ r ∈ get_checkin_events sampleDB,
      r.event_date = 101 ∧ r.event_type = EventType.meeting :=
  ((get_checkin_events_contract sampleDB).2.1 101 EventType.meeting).2 (by decide)

/-! ## C5 — scan_for_new_events backfills exactly one event per pair -/

theorem scan_eventKeys (db : DB) :
    ((scan_for_new_events db).1).eventKeys = db.eventKeys ++ missingPairs db := by
  show (db.events ++
      (missingPairs db).map (fun p => (⟨p.1, p.2, Option.none⟩ : EventRow))).map
        EventRow.key = _
  rw [List.map_append]
  congr 1
  rw [List.map_map]
  rw [List.map_congr_left (fun (p : Date × EventType) _ =>
    (rfl : (EventRow.key ∘ fun p => (⟨p.1, p.2, Option.none⟩ : EventRow)) p = id p))]
  exact List.map_id _

/-- **C5** (spec-modelled): after `scan_for_new_events` every distinct
(event_date, event_type) pair occurring among the check-ins has exactly
one `events` row, and running it again with the check-ins unchanged
inserts zero events and leaves the store exactly as it was. -/
theorem scan_for_new_events_contract (db : DB) (h : db.eventKeys.Nodup) :
    (∀ c ∈ db.checkins,
      ((scan_for_new_events db).1).eventKeys.countP
        (fun k => decide (k = (c.timestamp.day, c.event_type))) = 1) ∧
    (scan_for_new_events ((scan_for_new_events db).1)).2 = 0 ∧
    (scan_for_new_events ((scan_for_new_events db).1)).1 = (scan_for_new_events db).1 := by
  have hmisnodup : (missingPairs db).Nodup :=
    (List.nodup_dedup _).filter _
  have hmissing2 : missingPairs ((scan_for_new_events db).1) = [] := by
    unfold missingPairs
    rw [scan_for_new_events_checkins]
    apply List.filter_eq_nil_iff.2
    intro p hp
    simp only [decide_eq_true_eq, Decidable.not_not]
    rw [scan_eventKeys, List.mem_append]
    by_cases hk : p ∈ db.eventKeys
    · exact Or.inl hk
    · refine Or.inr (List.mem_filter.2 ⟨hp, ?_⟩)
      simpa using hk
  refine ⟨?_, ?_, ?_⟩
  · intro c hc
    rw [scan_eventKeys, List.countP_append]
    by_cases hk : (c.timestamp.day, c.event_type) ∈ db.eventKeys
    · rw [countP_eq_one_of_nodup_mem h hk]
      have hz : (missingPairs db).countP
          (fun k => decide (k = (c.timestamp.day, c.event_type))) = 0 := by
        refine List.countP_eq_zero.2 (fun p hp => ?_)
        have hpf := List.mem_filter.1 hp
        simp only [decide_eq_true_eq] at hpf ⊢
        intro hpk
        subst hpk
        exact hpf.2 hk
      rw [hz]
    · have hz : db.eventKeys.countP
          (fun k => decide (k = (c.timestamp.day, c.event_type))) = 0 := by
        refine List.countP_eq_zero.2 (fun p hp => ?_)
        simp only [decide_eq_true_eq]
        intro hpk
        subst hpk
        exact hk hp
      have hmem : (c.timestamp.day, c.event_type) ∈ missingPairs db := by
        refine List.mem_filter.2 ⟨?_, ?_⟩
        · exact List.mem_dedup.2 (List.mem_map.2 ⟨c, hc, rfl⟩)
        · simpa using hk
      rw [hz, countP_eq_one_of_nodup_mem hmisnodup hmem]
  · show ((missingPairs ((scan_for_new_events db).1))).length = 0
    rw [hmissing2]
    rfl
  · show ({ (scan_for_new_events db).1 with
      events := ((scan_for_new_events db).1).events ++
        (missingPairs ((scan_for_new_events db).1)).map
          (fun p => (⟨p.1, p.2, Option.none⟩ : EventRow)) } : DB) =
      (scan_for_new_events db).1
    rw [hmissing2]
    simp

/-- A store with check-ins but an empty events table, for the C5 witness. -/
def noEventsDB : DB :=
  ⟨[adaRow], [],
   [⟨1, "lovelace-ada-2027-001", .meeting, ⟨100, 3600⟩⟩,
    ⟨2, "lovelace-ada-2027-001", .outreach, ⟨101, 1800⟩⟩],
   3⟩

/-- Witness for C5 at a concrete store with two distinct check-in pairs
and no events. -/
theorem scan_for_new_events_contract_witness :
    noEventsDB.eventKeys.Nodup ∧
    ((∀ c ∈ noEventsDB.checkins,
      ((scan_for_new_events noEventsDB).1).eventKeys.countP
        (fun k => decide (k = (c.timestamp.day, c.event_type))) = 1) ∧
    (scan_for_new_events ((scan_for_new_events noEventsDB).1)).2 = 0 ∧
    (scan_for_new_events ((scan_for_new_events noEventsDB).1)).1 =
      (scan_for_new_events noEventsDB).1) :=
  ⟨by decide, scan_for_new_events_contract noEventsDB (by decide)⟩

/-! ## C10 — merge_database is insert-only on the target -/

theorem checkinsInsert_append (db : DB) (sid : String) (ty : EventType) (ts : Timestamp) :
    ∃ added, (checkinsInsert db sid ty ts).1.checkins = db.checkins ++ added := by
  unfold checkinsInsert
  split_ifs
  all_goals first
    | exact ⟨[⟨db.nextCheckinId, sid, ty, ts⟩], rfl⟩
    | exact ⟨[], (List.append_nil _).symm⟩

theorem checkinsInsert_students (db : DB) (sid : String) (ty : EventType) (ts : Timestamp) :
    (checkinsInsert db sid ty ts).1.students = db.students := by
  unfold checkinsInsert
  split_ifs <;> rfl

theorem checkinsInsert_events (db : DB) (sid : String) (ty : EventType) (ts : Timestamp) :
    (checkinsInsert db sid ty ts).1.events = db.events := by
  unfold checkinsInsert
  split_ifs <;> rfl

theorem mergeStudents_students (l : List StudentRow) : ∀ (ids : List String) (db : DB),
    ∃ added, (mergeStudents ids db l).1.students = db.students ++ added := by
  induction l with
  | nil => intro ids db; exact ⟨[], (List.append_nil _).symm⟩
  | cons s rest ih =>
      intro ids db
      unfold mergeStudents
      split_ifs with h1 h2 h3
      · exact ih ids db
      · exact ⟨[], (List.append_nil _).symm⟩
      · exact ih ids db
      · obtain ⟨added, ha⟩ := ih ids { db with students := db.students ++ [s] }
        exact ⟨[s] ++ added, by rw [ha]; simp⟩

theorem mergeStudents_events (l : List StudentRow) : ∀ (ids : List String) (db : DB),
    (mergeStudents ids db l).1.events = db.events := by
  induction l with
  | nil => intro ids db; rfl
  | cons s rest ih =>
      intro ids db
      unfold mergeStudents
      split_ifs with h1 h2 h3
      · exact ih ids db
      · rfl
      · exact ih ids db
      · exact ih ids _

theorem mergeCheckinsLoop_students (l : List CheckinRow) : ∀ db : DB,
    (mergeCheckinsLoop db l).students = db.students := by
  induction l with
  | nil => intro db; rfl
  | cons c rest ih =>
      intro db
      unfold mergeCheckinsLoop
      exact (ih _).trans (checkinsInsert_students db _ _ _)

theorem mergeCheckinsLoop_events (l : List CheckinRow) : ∀ db : DB,
    (mergeCheckinsLoop db l).events = db.events := by
  induction l with
  | nil => intro db; rfl
  | cons c rest ih =>
      intro db
      unfold mergeCheckinsLoop
      exact (ih _).trans (checkinsInsert_events db _ _ _)

theorem mergeCheckinsLoop_append (l : List CheckinRow) : ∀ db : DB,
    ∃ added, (mergeCheckinsLoop db l).checkins = db.checkins ++ added := by
  induction l with
  | nil => intro db; exact ⟨[], (List.append_nil _).symm⟩
  | cons c rest ih =>
      intro db
      unfold mergeCheckinsLoop
      obtain ⟨a1, h1⟩ := checkinsInsert_append db c.student_id c.event_type c.timestamp
      obtain ⟨a2, h2⟩ := ih (checkinsInsert db c.student_id c.event_type c.timestamp).1
      exact ⟨a1 ++ a2, by rw [h2, h1, List.append_assoc]⟩

/-- **C10**: both `merge_database` as written (which commits the student
phase and then crashes on the closed cursor) and the check-in loop it was
meant to run afterwards only ever append to the target store: every
student, event and check-in row present in the target before the merge is
still present, unmodified and in place, afterwards. -/
theorem merge_database_insert_only (db incoming : DB) :
    (∃ added, (merge_database db incoming).1.students = db.students ++ added) ∧
    (merge_database db incoming).1.events = db.events ∧
    (merge_database db incoming).1.checkins = db.checkins ∧
    (∃ added, (merge_database_checkin_loop db incoming).1.students = db.students ++ added) ∧
    (merge_database_checkin_loop db incoming).1.events = db.events ∧
    (∃ added, (merge_database_checkin_loop db incoming).1.checkins = db.checkins ++ added) := by
  have hs := mergeStudents_students incoming.students db.studentIds db
  have he := mergeStudents_events incoming.students db.studentIds db
  have hc := mergeStudents_checkins incoming.students db.studentIds db
  refine ⟨?_, ?_, merge_database_checkins db incoming, ?_, ?_, ?_⟩
  · unfold merge_database
    rcases hm : mergeStudents db.studentIds db incoming.students with ⟨db1, e⟩
    rw [hm] at hs
    cases e with
    | none => simpa using hs
    | some err => exact ⟨[], (List.append_nil _).symm⟩
  · unfold merge_database
    rcases hm : mergeStudents db.studentIds db incoming.students with ⟨db1, e⟩
    rw [hm] at he
    cases e with
    | none => simpa using he
    | some err => rfl
  · unfold merge_database_checkin_loop
    rcases hm : mergeStudents db.studentIds db incoming.students with ⟨db1, e⟩
    rw [hm] at hs
    cases e with
    | none =>
        obtain ⟨a1, h1⟩ := hs
        rw [mergeCheckinsLoop_students]
        exact ⟨a1, h1⟩
    | some err => exact ⟨[], (List.append_nil _).symm⟩
  · unfold merge_database_checkin_loop
    rcases hm : mergeStudents db.studentIds db incoming.students with ⟨db1, e⟩
    rw [hm] at he
    cases e with
    | none => rw [mergeCheckinsLoop_events]; simpa using he
    | some err => rfl
  · unfold merge_database_checkin_loop
    rcases hm : mergeStudents db.studentIds db incoming.students with ⟨db1, e⟩
    rw [hm] at hc
    cases e with
    | none =>
        obtain ⟨a2, h2⟩ := mergeCheckinsLoop_append incoming.checkins db1
        rw [h2]
        simp only at hc
        rw [hc]
        exact ⟨a2, rfl⟩
    | some err => exact ⟨[], (List.append_nil _).symm⟩

/-! ## C7 — merge_database crashes before merging any check-in -/

/-- **C7** (the code, evaluated at the failing input): merging
`incomingDB` (one already-present student, one new student, one duplicate
check-in and one genuinely new check-in) into `sampleDB` commits the
student phase and then raises `sqlite3.ProgrammingError`, because the
check-in cursor of the incoming store is iterated after its connection
was closed.  No check-in is merged — running the merge twice can never
reach the claimed skip-duplicates-and-continue behaviour, which the dead
loop (`merge_database_checkin_loop`) would have provided. -/
theorem merge_database_crash :
    (merge_database sampleDB incomingDB).2 = some SqlError.programmingError ∧
    (merge_database sampleDB incomingDB).1.students =
      sampleDB.students ++ [⟨"curie-marie-2028-003", "Marie", "Curie", "marie@example.com", 2028⟩] ∧
    (merge_database sampleDB incomingDB).1.checkins = sampleDB.checkins ∧
    (merge_database_checkin_loop sampleDB incomingDB).1.checkins =
      sampleDB.checkins ++ [⟨4, "curie-marie-2028-003", .meeting, ⟨100, 4000⟩⟩] := by
  refine ⟨?_, ?_, ?_, ?_⟩ <;> decide

/-! ## C6 — export/import round-trip -/

theorem add_student_ok (db : DB) (s : StudentRow)
    (hid : s.student_id ∉ db.studentIds) (hem : s.email ∉ db.emails) :
    add_student db s = ({ db with students := db.students ++ [s] }, Option.none) := by
  unfold add_student
  rw [if_neg hid, if_neg hem]

theorem eventsInsert_ok (db : DB) (e : EventRow) (hk : e.key ∉ db.eventKeys) :
    eventsInsert db e = ({ db with events := db.events ++ [e] }, true) := by
  unfold eventsInsert
  rw [if_neg hk]

theorem checkinsInsert_ok (db : DB) (sid : String) (ty : EventType) (ts : Timestamp)
    (h1 : (sid, ts.day, ty) ∉ db.checkinKeys) (h2 : sid ∈ db.studentIds)
    (h3 : (ts.day, ty) ∈ db.eventKeys) :
    checkinsInsert db sid ty ts =
      ({ db with
          checkins := db.checkins ++ [⟨db.nextCheckinId, sid, ty, ts⟩],
          nextCheckinId := db.nextCheckinId + 1 }, Option.none) := by
  unfold checkinsInsert
  rw [if_neg h1, if_neg (fun hn => hn h2), if_neg (fun hn => hn h3)]

theorem insertStudentsFold_ok (rows : List StudentRow) : ∀ db : DB,
    ((db.students ++ rows).map StudentRow.student_id).Nodup →
    ((db.students ++ rows).map StudentRow.email).Nodup →
    (insertStudentsFold db rows).2 = Option.none ∧
    (insertStudentsFold db rows).1.students = db.students ++ rows ∧
    (insertStudentsFold db rows).1.events = db.events ∧
    (insertStudentsFold db rows).1.checkins = db.checkins := by
  induction rows with
  | nil =>
      intro db _ _
      exact ⟨rfl, (List.append_nil _).symm, rfl, rfl⟩
  | cons s rest ih =>
      intro db hid hem
      rw [List.map_append, List.nodup_append] at hid hem
      have hsid : s.student_id ∉ db.studentIds := fun hmem =>
        hid.2.2 hmem (List.mem_map.2 ⟨s, List.mem_cons_self s rest, rfl⟩)
      have hsem : s.email ∉ db.emails := fun hmem =>
        hem.2.2 hmem (List.mem_map.2 ⟨s, List.mem_cons_self s rest, rfl⟩)
      unfold insertStudentsFold
      rw [add_student_ok db s hsid hsem]
      have hassoc : db.students ++ s :: rest = (db.students ++ [s]) ++ rest := by
        rw [List.append_assoc]
        rfl
      have hid' : (((db.students ++ [s]) ++ rest).map StudentRow.student_id).Nodup := by
        rw [← hassoc, List.map_append, List.nodup_append]
        exact hid
      have hem' : (((db.students ++ [s]) ++ rest).map StudentRow.email).Nodup := by
        rw [← hassoc, List.map_append, List.nodup_append]
        exact hem
      obtain ⟨h2, hstu, hev, hchk⟩ := ih { db with students := db.students ++ [s] } hid' hem'
      refine ⟨h2, ?_, hev, hchk⟩
      rw [hstu]
      exact hassoc.symm ▸ rfl

theorem insertEventsFold_ok (rows : List EventRow) : ∀ db : DB,
    ((db.events ++ rows).map EventRow.key).Nodup →
    (insertEventsFold db rows).events = db.events ++ rows ∧
    (insertEventsFold db rows).students = db.students ∧
    (insertEventsFold db rows).checkins = db.checkins ∧
    (insertEventsFold db rows).nextCheckinId = db.nextCheckinId := by
  induction rows with
  | nil =>
      intro db _
      exact ⟨(List.append_nil _).symm, rfl, rfl, rfl⟩
  | cons e rest ih =>
      intro db hk
      rw [List.map_append, List.nodup_append] at hk
      have hek : e.key ∉ db.eventKeys := fun hmem =>
        hk.2.2 hmem (List.mem_map.2 ⟨e, List.mem_cons_self e rest, rfl⟩)
      unfold insertEventsFold
      rw [eventsInsert_ok db e hek]
      have hassoc : db.events ++ e :: rest = (db.events ++ [e]) ++ rest := by
        rw [List.append_assoc]
        rfl
      have hk' : (((db.events ++ [e]) ++ rest).map EventRow.key).Nodup := by
        rw [← hassoc, List.map_append, List.nodup_append]
        exact hk
      obtain ⟨hev, hstu, hchk, hnext⟩ := ih { db with events := db.events ++ [e] } hk'
      refine ⟨?_, hstu, hchk, hnext⟩
      rw [hev]
      exact hassoc.symm ▸ rfl

/-- The exported uniqueness key of a `CheckinExport` record. -/
def CheckinExport.ukey (r : CheckinExport) : String × Date × EventType :=
  (r.student_id, r.timestamp.day, r.event_type)

theorem insertCheckinsFold_ok (rows : List CheckinExport) : ∀ db : DB,
    (db.checkinKeys ++ rows.map CheckinExport.ukey).Nodup →
    (∀ r ∈ rows, r.student_id ∈ db.studentIds) →
    (∀ r ∈ rows, (r.timestamp.day, r.event_type) ∈ db.eventKeys) →
    (insertCheckinsFold db rows).2 = Option.none ∧
    (insertCheckinsFold db rows).1.checkins.map CheckinRow.export =
      db.checkins.map CheckinRow.export ++ rows ∧
    (insertCheckinsFold db rows).1.students = db.students ∧
    (insertCheckinsFold db rows).1.events = db.events := by
  induction rows with
  | nil =>
      intro db _ _ _
      exact ⟨rfl, (List.append_nil _).symm, rfl, rfl⟩
  | cons r rest ih =>
      intro db hk hfs hfe
      rw [List.map_cons] at hk
      have hk' := hk
      rw [List.nodup_append] at hk'
      have hkey : (r.student_id, r.timestamp.day, r.event_type) ∉ db.checkinKeys :=
        fun hmem => hk'.2.2 hmem (List.mem_cons_self _ _)
      unfold insertCheckinsFold
      rw [checkinsInsert_ok db r.student_id r.event_type r.timestamp hkey
        (hfs r (List.mem_cons_self r rest)) (hfe r (List.mem_cons_self r rest))]
      have hkeys' :
          (({ db with
              checkins := db.checkins ++ [⟨db.nextCheckinId, r.student_id, r.event_type,
                r.timestamp⟩],
              nextCheckinId := db.nextCheckinId + 1 } : DB).checkinKeys ++
            rest.map CheckinExport.ukey).Nodup := by
        show ((db.checkins ++
          [(⟨db.nextCheckinId, r.student_id, r.event_type, r.timestamp⟩ : CheckinRow)]).map
            CheckinRow.ukey ++ rest.map CheckinExport.ukey).Nodup
        rw [List.map_append, List.map_singleton, List.append_assoc]
        exact hk
      obtain ⟨h2, hchk, hstu, hev⟩ := ih _ hkeys'
        (fun r' hr' => hfs r' (List.mem_cons_of_mem _ hr'))
        (fun r' hr' => hfe r' (List.mem_cons_of_mem _ hr'))
      refine ⟨h2, ?_, hstu, hev⟩
      rw [hchk]
      show (db.checkins ++
        [(⟨db.nextCheckinId, r.student_id, r.event_type, r.timestamp⟩ : CheckinRow)]).map
          CheckinRow.export ++ rest = db.checkins.map CheckinRow.export ++ (r :: rest)
      rw [List.map_append, List.map_singleton, List.append_assoc]
      rfl

/-- **C6**: exporting a well-formed store with `to_dict` and importing the
snapshot with `load_from_dict` into an empty store succeeds and reproduces
the source: student rows and event rows are exactly the source's (as
multisets), check-in rows agree after stripping the derived columns
(`checkin_id`, `event_date`, `day_of_week` — `CheckinRow.export`), and all
three table sizes are preserved. -/
theorem to_dict_load_roundtrip (db : DB) (h : db.WF) :
    (load_from_dict DB.empty (to_dict db)).2 = Option.none ∧
    List.Perm ((load_from_dict DB.empty (to_dict db)).1.students) db.students ∧
    List.Perm ((load_from_dict DB.empty (to_dict db)).1.events) db.events ∧
    List.Perm (((load_from_dict DB.empty (to_dict db)).1.checkins).map CheckinRow.export)
      (db.checkins.map CheckinRow.export) ∧
    (load_from_dict DB.empty (to_dict db)).1.students.length = db.students.length ∧
    (load_from_dict DB.empty (to_dict db)).1.events.length = db.events.length ∧
    (load_from_dict DB.empty (to_dict db)).1.checkins.length = db.checkins.length := by
  unfold DB.WF at h
  obtain ⟨hidn, hemn, hevn, hukn, hfs, hfe⟩ := h
  have perm_s : List.Perm (List.insertionSort studentIdOrder db.students) db.students :=
    List.perm_insertionSort _ _
  have perm_e : List.Perm (List.insertionSort eventOrder db.events) db.events :=
    List.perm_insertionSort _ _
  have perm_c : List.Perm (List.insertionSort checkinTsOrder db.checkins) db.checkins :=
    List.perm_insertionSort _ _
  have hids : ((DB.empty.students ++ (to_dict db).students).map StudentRow.student_id).Nodup :=
    ((perm_s.map StudentRow.student_id).symm.nodup hidn)
  have hems : ((DB.empty.students ++ (to_dict db).students).map StudentRow.email).Nodup :=
    ((perm_s.map StudentRow.email).symm.nodup hemn)
  obtain ⟨e1none, s1, ev1, c1⟩ :=
    insertStudentsFold_ok (to_dict db).students DB.empty hids hems
  unfold load_from_dict
  rcases hfold : insertStudentsFold DB.empty (to_dict db).students with ⟨db1, e1⟩
  rw [hfold] at e1none s1 ev1 c1
  simp only at e1none s1 ev1 c1
  subst e1none
  dsimp only
  have hevkeys : ((db1.events ++ (to_dict db).events).map EventRow.key).Nodup := by
    rw [ev1]
    exact ((perm_e.map EventRow.key).symm.nodup hevn)
  obtain ⟨e2ev, e2stu, e2chk, e2next⟩ :=
    insertEventsFold_ok (to_dict db).events db1 hevkeys
  have hc2keys :
      (((insertEventsFold db1 (to_dict db).events).checkinKeys ++
        ((to_dict db).checkins).map CheckinExport.ukey)).Nodup := by
    show (((insertEventsFold db1 (to_dict db).events).checkins.map CheckinRow.ukey ++
      ((to_dict db).checkins).map CheckinExport.ukey)).Nodup
    rw [e2chk, c1]
    show (((to_dict db).checkins).map CheckinExport.ukey).Nodup
    show (((List.insertionSort checkinTsOrder db.checkins).map CheckinRow.export).map
      CheckinExport.ukey).Nodup
    rw [List.map_map]
    exact ((perm_c.map CheckinRow.ukey).symm.nodup hukn)
  have hc2fs : ∀ r ∈ (to_dict db).checkins,
      r.student_id ∈ (insertEventsFold db1 (to_dict db).events).studentIds := by
    intro r hr
    obtain ⟨c, hc, hcr⟩ := List.mem_map.1 hr
    have hcmem : c ∈ db.checkins := perm_c.mem_iff.1 hc
    show r.student_id ∈ (insertEventsFold db1 (to_dict db).events).students.map
      StudentRow.student_id
    rw [e2stu, s1]
    refine (perm_s.map StudentRow.student_id).mem_iff.2 ?_
    rw [← hcr]
    exact hfs c hcmem
  have hc2fe : ∀ r ∈ (to_dict db).checkins,
      (r.timestamp.day, r.event_type) ∈ (insertEventsFold db1 (to_dict db).events).eventKeys := by
    intro r hr
    obtain ⟨c, hc, hcr⟩ := List.mem_map.1 hr
    have hcmem : c ∈ db.checkins := perm_c.mem_iff.1 hc
    show (r.timestamp.day, r.event_type) ∈
      (insertEventsFold db1 (to_dict db).events).events.map EventRow.key
    rw [e2ev, ev1]
    refine (perm_e.map EventRow.key).mem_iff.2 ?_
    rw [← hcr]
    exact hfe c hcmem
  obtain ⟨e3none, c3, s3, ev3⟩ :=
    insertCheckinsFold_ok (to_dict db).checkins (insertEventsFold db1 (to_dict db).events)
      hc2keys hc2fs hc2fe
  rcases hcf : insertCheckinsFold (insertEventsFold db1 (to_dict db).events)
    (to_dict db).checkins with ⟨db3, e3⟩
  rw [hcf] at e3none c3 s3 ev3
  simp only at e3none c3 s3 ev3
  subst e3none
  dsimp only
  have hstu3 : db3.students = (to_dict db).students := by
    rw [s3, e2stu, s1]
    rfl
  have hev3 : db3.events = (to_dict db).events := by
    rw [ev3, e2ev, ev1]
    rfl
  have hchk3 : db3.checkins.map CheckinRow.export = (to_dict db).checkins := by
    rw [c3, e2chk, c1]
    rfl
  have hps : List.Perm db3.students db.students := hstu3 ▸ perm_s
  have hpe : List.Perm db3.events db.events := hev3 ▸ perm_e
  have hpc : List.Perm (db3.checkins.map CheckinRow.export)
      (db.checkins.map CheckinRow.export) := by
    rw [hchk3]
    exact perm_c.map CheckinRow.export
  refine ⟨rfl, hps, hpe, hpc, hps.length_eq, hpe.length_eq, ?_⟩
  have := hpc.length_eq
  simpa using this

/-- A well-formed sample store exercising the C6 round-trip. -/
theorem to_dict_load_roundtrip_witness :
    sampleDB.WF ∧
    ((load_from_dict DB.empty (to_dict sampleDB)).2 = Option.none ∧
    List.Perm ((load_from_dict DB.empty (to_dict sampleDB)).1.students) sampleDB.students ∧
    List.Perm ((load_from_dict DB.empty (to_dict sampleDB)).1.events) sampleDB.events ∧
    List.Perm
      (((load_from_dict DB.empty (to_dict sampleDB)).1.checkins).map CheckinRow.export)
      (sampleDB.checkins.map CheckinRow.export) ∧
    (load_from_dict DB.empty (to_dict sampleDB)).1.students.length =
      sampleDB.students.length ∧
    (load_from_dict DB.empty (to_dict sampleDB)).1.events.length =
      sampleDB.events.length ∧
    (load_from_dict DB.empty (to_dict sampleDB)).1.checkins.length =
      sampleDB.checkins.length) :=
  ⟨by decide, to_dict_load_roundtrip sampleDB (by decide)⟩

/-! ## C9 — season and build-season totals -/

/-- **C9**: `get_student_attendance_data` returns one row per student —
students with zero qualifying check-ins included, with counts 0 — whose
`year_checkins` / `build_checkins` equal the number of the student's
check-ins with timestamp on or after the school-year / build-season start,
and whenever the build-season starts on or after the school-year,
`build_checkins <= year_checkins` holds for every row. -/
theorem get_student_attendance_data_correct (db : DB) (yearStart buildStart : Date) :
    (get_student_attendance_data db yearStart buildStart).length = db.students.length ∧
    (∀ s ∈ db.students,
      (⟨s.student_id, s.last_name, s.first_name, s.grad_year,
        db.checkins.countP (fun c =>
          decide (c.student_id = s.student_id ∧ c.timestamp.onOrAfter yearStart)),
        db.checkins.countP (fun c =>
          decide (c.student_id = s.student_id ∧ c.timestamp.onOrAfter buildStart))⟩ :
        AttendanceRow) ∈ get_student_attendance_data db yearStart buildStart) ∧
    (yearStart ≤ buildStart →
      ∀ r ∈ get_student_attendance_data db yearStart buildStart,
        r.build_checkins ≤ r.year_checkins) := by
  refine ⟨?_, ?_, ?_⟩
  · unfold get_student_attendance_data
    rw [List.length_map]
    exact (List.perm_insertionSort studentNameOrder db.students).length_eq
  · intro s hs
    unfold get_student_attendance_data
    refine List.mem_map.2 ⟨s, ?_, rfl⟩
    exact (List.perm_insertionSort studentNameOrder db.students).mem_iff.2 hs
  · intro hyb r hr
    unfold get_student_attendance_data at hr
    obtain ⟨s, -, hsr⟩ := List.mem_map.1 hr
    subst hsr
    refine List.countP_mono_left (fun c _ hc => ?_)
    simp only [decide_eq_true_eq] at hc ⊢
    exact ⟨hc.1, Nat.le_trans hyb hc.2⟩

/-- Witness for C9 at the sample store with school-year start 90 and
build-season start 100: Ada's row carries the two windowed counts, her
year count evaluates to 2, and the monotonicity holds across the rows. -/
theorem get_student_attendance_data_witness :
    (⟨"lovelace-ada-2027-001", "Lovelace", "Ada", 2027,
      sampleDB.checkins.countP (fun c =>
        decide (c.student_id = "lovelace-ada-2027-001" ∧ c.timestamp.onOrAfter 90)),
      sampleDB.checkins.countP (fun c =>
        decide (c.student_id = "lovelace-ada-2027-001" ∧ c.timestamp.onOrAfter 100))⟩ :
      AttendanceRow) ∈ get_student_attendance_data sampleDB 90 100 ∧
    sampleDB.checkins.countP (fun c =>
      decide (c.student_id = "lovelace-ada-2027-001" ∧ c.timestamp.onOrAfter 90)) = 2 ∧
    (∀ r ∈ get_student_attendance_data sampleDB 90 100,
      r.build_checkins ≤ r.year_checkins) :=
  ⟨(get_student_attendance_data_correct sampleDB 90 100).2.1 adaRow (by decide),
   by decide,
   (get_student_attendance_data_correct sampleDB 90 100).2.2 (by decide)⟩

end IrsAttend
